import Mathlib

/-!
Verification development for the two salt returner plugins
(`salt/returners/mongo_future_return.py` and `salt/returners/xmpp_return.py`).

The Python data universe relevant to these modules is shallowly embedded as
`PyVal`: `None`, strings, integers, booleans and dictionaries with string keys.
Python dictionaries are modelled as association lists in insertion order with
no duplicate keys; `dictInsert` performs Python's `d[k] = v` (replace the value
of an existing key in place, otherwise append) and `dictFind` performs lookup.
Sequence types are omitted from the value model: no claim depends on them, and
the source never inspects them (they flow through as opaque scalars would).
-/

set_option autoImplicit false

namespace Salt

/-- Embedding of the Python values handled by the two returner modules. -/
inductive PyVal where
  | none : PyVal
  | str : String → PyVal
  | int : Int → PyVal
  | bool : Bool → PyVal
  | dict : List (String × PyVal) → PyVal


/-- Python truthiness (`bool(v)`) for the embedded values: `None`, `''`, `0`,
`False` and `{}` are falsy, everything else is truthy. -/
def truthy : PyVal → Bool
  | PyVal.none => false
  | PyVal.str s => !s.isEmpty
  | PyVal.int n => n != 0
  | PyVal.bool b => b
  | PyVal.dict d => !d.isEmpty

/-- The keys of a dictionary, in insertion order. -/
def keys (d : List (String × PyVal)) : List String := d.map Prod.fst

/-- Python dictionary lookup: the value bound to `key`, if any. -/
def dictFind : List (String × PyVal) → String → Option PyVal
  | [], _ => Option.none
  | (k, v) :: rest, key => if k = key then some v else dictFind rest key

/-- Python dictionary assignment `d[k] = v`: replace the value of an existing
key in place, otherwise append the new binding. -/
def dictInsert (d : List (String × PyVal)) (k : String) (v : PyVal) : List (String × PyVal) :=
  if k ∈ keys d then d.map (fun p => if p.1 = k then (p.1, v) else p) else d ++ [(k, v)]

/-- Python `d.get(key, dflt)` on an embedded value: the binding of `key` when
the value is a dictionary that carries the key, otherwise the default.
(The source only ever calls `.get` on dictionaries; a non-dictionary would
raise in Python and is mapped to the default here.) -/
def pyGet (d : PyVal) (key : String) (dflt : PyVal) : PyVal :=
  match d with
  | PyVal.dict entries => (dictFind entries key).getD dflt
  | _ => dflt

/-- The character substitution underlying `key.replace('.', '-')`. -/
def dotDash (c : Char) : Char :=
  if c = '.' then '-' else c

/-- `key.replace('.', '-')`: every occurrence of `'.'` in the string is
replaced by `'-'` (a single-character pattern makes `str.replace` a
character-wise map). -/
def replaceDots (s : String) : String :=
  String.mk (s.data.map dotDash)

mutual

/-- The value transformation applied by `_remove_dots` to each dictionary
value: `if isinstance(val, dict): val = _remove_dots(val)`. -/
def sanitizeVal : PyVal → PyVal
  | PyVal.dict d => PyVal.dict (removeDotsAux [] d)
  | v => v

/-- The loop of `_remove_dots`: fold over the source entries, building the
`output` dictionary by `output[key.replace('.', '-')] = val`. -/
def removeDotsAux : List (String × PyVal) → List (String × PyVal) → List (String × PyVal)
  | output, [] => output
  | output, (k, v) :: rest =>
      removeDotsAux (dictInsert output (replaceDots k) (sanitizeVal v)) rest

end

/-- `_remove_dots(src)` from `mongo_future_return.py`. -/
def remove_dots (src : List (String × PyVal)) : List (String × PyVal) :=
  removeDotsAux [] src

/-!
## Config resolution (`_get_options` in both modules)

The ambient configuration (`__salt__['config.option']` or `__opts__`) is
modelled as a partial map from option keys to values, `ConfigStore`.  The two
code branches (`'config.option' in __salt__` true/false) perform the same
resolution and differ only in the value produced for a missing flat key:
`config.option` defaults to `''`, a plain `__opts__.get` yields `None`.  That
value is abstracted as the `flatMissing` parameter (falsy in both branches).

`ret_config` is `None` when `_get_options` is called with a falsy `ret`
(e.g. from `save_load`), and the string `ret['ret_config']` (or `''` when the
key is absent) otherwise.
-/

/-- The ambient salt configuration: option key to configured value. -/
def ConfigStore : Type := String → Option PyVal

/-- The primary-namespace resolution
`c_cfg.get(attrs[attr], cfg('{virtualname}.{key}'))`:
the entry of the namespace dictionary, defaulting to the flat dotted key. -/
def primaryAttr (opts : ConfigStore) (flatMissing : PyVal) (vname key : String) : PyVal :=
  pyGet ((opts vname).getD (PyVal.dict [])) key ((opts (vname ++ "." ++ key)).getD flatMissing)

/-- The alternate-namespace candidate
`ret_cfg.get(attrs[attr], cfg('{ret_config}.{virtualname}.{key}'))`. -/
def altAttr (opts : ConfigStore) (flatMissing : PyVal) (rc vname key : String) : PyVal :=
  pyGet ((opts (rc ++ "." ++ vname)).getD (PyVal.dict []))
    key ((opts (rc ++ "." ++ vname ++ "." ++ key)).getD flatMissing)

/-- Resolution of one setting by `_get_options`: try the alternate-namespace
candidate when an alternate configuration name is given and truthy, fall back
to the primary namespace when the candidate is falsy, and store falsy results
as the sentinel `None` (`if not _attr: _options[attr] = None`). -/
def resolveAttr (opts : ConfigStore) (flatMissing : PyVal) (retConfig : Option String)
    (vname key : String) : PyVal :=
  let t :=
    match retConfig with
    | some rc =>
        if rc = "" then primaryAttr opts flatMissing vname key
        else if truthy (altAttr opts flatMissing rc vname key)
          then altAttr opts flatMissing rc vname key
          else primaryAttr opts flatMissing vname key
    | Option.none => primaryAttr opts flatMissing vname key
  if truthy t then t else PyVal.none

/-- The `attrs` dictionary of `mongo_future_return._get_options`:
setting name to config-key suffix. -/
def mongoAttrs : List (String × String) :=
  [("host", "host"), ("port", "port"), ("db", "db"),
   ("username", "username"), ("password", "password")]

/-- The `attrs` dictionary of `xmpp_return._get_options`. -/
def xmppAttrs : List (String × String) :=
  [("xmpp_profile", "profile"), ("from_jid", "jid"),
   ("password", "password"), ("recipient_jid", "recipient")]

/-- The `for attr in attrs` loop shared by both `_get_options` functions:
build the `_options` dictionary one resolved setting at a time. -/
def baseOptions (opts : ConfigStore) (flatMissing : PyVal) (retConfig : Option String)
    (vname : String) (attrs : List (String × String)) : List (String × PyVal) :=
  attrs.foldl (fun acc p => dictInsert acc p.1 (resolveAttr opts flatMissing retConfig vname p.2)) []

/-- `_get_options` of `mongo_future_return.py`. -/
def mongo_get_options (opts : ConfigStore) (flatMissing : PyVal)
    (retConfig : Option String) : List (String × PyVal) :=
  baseOptions opts flatMissing retConfig "mongo" mongoAttrs

/-- The credentials dictionary fetched for the profile override of
`xmpp_return._get_options`: `creds = cfg(_options['xmpp_profile'])`.  A
non-string profile value (in particular the `None` sentinel) is not a
configured key, so the lookup yields the missing-key default. -/
def xmppCreds (opts : ConfigStore) (flatMissing : PyVal) (profile : PyVal) : PyVal :=
  match profile with
  | PyVal.str s => (opts s).getD flatMissing
  | _ => flatMissing

/-- The credentials dictionary in effect after resolving the `xmpp_profile`
setting of the base options. -/
def xmppProfileCreds (opts : ConfigStore) (flatMissing : PyVal)
    (retConfig : Option String) : PyVal :=
  xmppCreds opts flatMissing
    ((dictFind (baseOptions opts flatMissing retConfig "xmpp" xmppAttrs) "xmpp_profile").getD PyVal.none)

/-- `_get_options` of `xmpp_return.py`: the shared resolution loop followed by
the profile override, which (when the fetched credentials are truthy)
overwrites `from_jid` and `password` with `creds.get('xmpp.jid')` and
`creds.get('xmpp.password')`. -/
def xmpp_get_options (opts : ConfigStore) (flatMissing : PyVal)
    (retConfig : Option String) : List (String × PyVal) :=
  let base := baseOptions opts flatMissing retConfig "xmpp" xmppAttrs
  let creds := xmppProfileCreds opts flatMissing retConfig
  if truthy creds then
    dictInsert (dictInsert base "from_jid" (pyGet creds "xmpp.jid" PyVal.none))
      "password" (pyGet creds "xmpp.password" PyVal.none)
  else base

/-- The empty configuration: no option is set. -/
def emptyStore : ConfigStore := fun _ => Option.none

/-!
## Database connection (`_get_conn`) and dispatchers
-/

/-- Observable outcome of `mongo_future_return._get_conn`: the connection
parameters passed to `pymongo.Connection`/database selection, and whether
`mdb.authenticate` was invoked (`if user and password:`). -/
structure MongoConn where
  host : PyVal
  port : PyVal
  db : PyVal
  authCalled : Bool

/-- `_get_conn` of `mongo_future_return.py`.  Note the source reads the
credential as `_options.get('user')` although `_get_options` stores it under
`'username'`. -/
def mongo_get_conn (opts : ConfigStore) (flatMissing : PyVal)
    (retConfig : Option String) : MongoConn :=
  let o := mongo_get_options opts flatMissing retConfig
  let user := (dictFind o "user").getD PyVal.none
  let password := (dictFind o "password").getD PyVal.none
  { host := (dictFind o "host").getD PyVal.none
    port := (dictFind o "port").getD PyVal.none
    db := (dictFind o "db").getD PyVal.none
    authCalled := truthy user && truthy password }

/-- The result record consumed by `mongo_future_return.returner`.  `fn` models
the `'fun'` entry (`fun` is a reserved word here), `out` the optional `'out'`
entry, and `ret_config` the optional `'ret_config'` entry. -/
structure MongoRet where
  id : String
  jid : String
  fn : String
  retval : PyVal
  out : Option PyVal
  ret_config : Option String

/-- `returner` of `mongo_future_return.py`: the connection obtained via
`_get_conn`, the name of the collection written to (`ret['id']`), and the
single document inserted
(`{ret['jid']: back, 'fun': ret['fun']}`, plus `'out'` when present, where
`back` is the dot-sanitized return payload). -/
def mongo_returner (opts : ConfigStore) (flatMissing : PyVal) (ret : MongoRet) :
    MongoConn × String × List (String × PyVal) :=
  let conn := mongo_get_conn opts flatMissing (some (ret.ret_config.getD ""))
  let back :=
    match ret.retval with
    | PyVal.dict d => PyVal.dict (remove_dots d)
    | v => v
  let sdata := dictInsert (dictInsert [] ret.jid back) "fun" (PyVal.str ret.fn)
  let sdata :=
    match ret.out with
    | some o => dictInsert sdata "out" o
    | Option.none => sdata
  (conn, ret.id, sdata)

/-- `save_load` of `mongo_future_return.py`: insert the load, unchanged, into
the collection named by the job id. -/
def save_load (jid : String) (load : PyVal) : String × PyVal :=
  (jid, load)

/-- Models Python 2 `int(name)` succeeding on a string: optional surrounding
whitespace, an optional single sign, then a non-empty run of digits. -/
def intParses (name : String) : Bool :=
  let t := ((name.data.dropWhile Char.isWhitespace).reverse.dropWhile Char.isWhitespace).reverse
  let digits :=
    match t with
    | '+' :: rest => rest
    | '-' :: rest => rest
    | rest => rest
  !digits.isEmpty && digits.all Char.isDigit

/-- `get_minions` of `mongo_future_return.py`, as a function of the collection
names: skip a name exactly when it has length 20 and parses as an integer. -/
def get_minions (names : List String) : List String :=
  names.foldl
    (fun ret name =>
      if name.length = 20 then
        if intParses name then ret else ret ++ [name]
      else ret ++ [name])
    []

/-- `get_jids` of `mongo_future_return.py`, as a function of the collection
names: keep a name exactly when it has length 20 and parses as an integer. -/
def get_jids (names : List String) : List String :=
  names.foldl
    (fun ret name =>
      if name.length = 20 then
        if intParses name then ret ++ [name] else ret
      else ret)
    []

/-!
## Messaging dispatcher (`xmpp_return.returner`)

String interpolation `'...{0}...'.format(x)` applies `str(x)`; the return
payload goes through `pprint.pformat`.  Both are modelled below for the
embedded value universe (`pformat` of a small value is its `repr`).
-/

mutual

/-- Model of Python `repr` on the embedded values. -/
def pyRepr : PyVal → String
  | PyVal.none => "None"
  | PyVal.str s => "'" ++ s ++ "'"
  | PyVal.int n => toString n
  | PyVal.bool b => if b then "True" else "False"
  | PyVal.dict d => "\x7b" ++ pyReprEntries d ++ "\x7d"

/-- Model of Python `repr` on the entries of a dictionary. -/
def pyReprEntries : List (String × PyVal) → String
  | [] => ""
  | [(k, v)] => "'" ++ k ++ "': " ++ pyRepr v
  | (k, v) :: rest => "'" ++ k ++ "': " ++ pyRepr v ++ ", " ++ pyReprEntries rest

end

/-- Model of Python `str` on the embedded values: identity on strings,
`repr` otherwise. -/
def pyStr : PyVal → String
  | PyVal.str s => s
  | v => pyRepr v

/-- Model of `pprint.pformat` on the embedded (small) values: their `repr`. -/
def pformat (v : PyVal) : String := pyRepr v

/-- The result record consumed by `xmpp_return.returner`.  All payload fields
are read with `ret.get(...)`, so each is an arbitrary value (`PyVal.none` when
the key is absent); `ret_config` models the optional `'ret_config'` entry. -/
structure XmppRet where
  id : PyVal
  fn : PyVal
  fun_args : PyVal
  jid : PyVal
  retval : PyVal
  ret_config : Option String

/-- The five-line message template of `xmpp_return.returner`. -/
def xmppMessage (ret : XmppRet) : String :=
  "id: " ++ pyStr ret.id ++ "\r\n" ++
  "function: " ++ pyStr ret.fn ++ "\r\n" ++
  "function args: " ++ pyStr ret.fun_args ++ "\r\n" ++
  "jid: " ++ pyStr ret.jid ++ "\r\n" ++
  "return: " ++ pformat ret.retval ++ "\r\n"

/-- Observable outcome of one `xmpp_return.returner` call.
`connectionAttempted` records whether a `SendMsgBot` was built and
`xmpp.connect()` called; `messageSent`/`sentType` record the
`send_message(..., mtype='chat')` performed by the bot's `session_start`
handler after a successful connect; `success` is the truthiness of the
returned value (`None` on an aborted call, the `connect()` result otherwise);
`botMessage` is the message handed to the bot. -/
structure XmppResult where
  connectionAttempted : Bool
  messageSent : Bool
  sentType : Option String
  success : Bool
  botMessage : Option String
  logged : Option String

/-- `_options.get(key)` as seen by `xmpp_return.returner`: the setting
resolved by `_get_options` for the record's optional alternate configuration
name. -/
def xmppResolved (opts : ConfigStore) (flatMissing : PyVal) (ret : XmppRet)
    (key : String) : PyVal :=
  (dictFind (xmpp_get_options opts flatMissing (some (ret.ret_config.getD ""))) key).getD
    PyVal.none

/-- `returner` of `xmpp_return.py`.  `connectOk` is the protocol-level result
of `xmpp.connect()`; on a successful connect the session starts and the bot
sends exactly one chat message, then the call returns `True`, otherwise
`False`. -/
def xmpp_returner (opts : ConfigStore) (flatMissing : PyVal) (ret : XmppRet)
    (connectOk : Bool) : XmppResult :=
  let from_jid := xmppResolved opts flatMissing ret "from_jid"
  let password := xmppResolved opts flatMissing ret "password"
  let recipient_jid := xmppResolved opts flatMissing ret "recipient_jid"
  if truthy from_jid = false then
    { connectionAttempted := false, messageSent := false, sentType := Option.none
      success := false, botMessage := Option.none
      logged := some "xmpp.jid not defined in salt config" }
  else if truthy password = false then
    { connectionAttempted := false, messageSent := false, sentType := Option.none
      success := false, botMessage := Option.none
      logged := some "xmpp.password not defined in salt config" }
  else if truthy recipient_jid = false then
    { connectionAttempted := false, messageSent := false, sentType := Option.none
      success := false, botMessage := Option.none
      logged := some "xmpp.recipient not defined in salt config" }
  else
    { connectionAttempted := true, messageSent := connectOk
      sentType := if connectOk then some "chat" else Option.none
      success := connectOk, botMessage := some (xmppMessage ret)
      logged := Option.none }

/-!
## Specification-side resolver

`specResolve`, in contrast with everything above, is written from the spec's
words ("resolves ... by checking, in priority order: (a) alternate-namespace-
specific value, (b) alternate-namespace default, (c) primary-namespace-
specific value, (d) primary-namespace default"), to be compared against
`resolveAttr`, the embedding of the source.  A level is absent when it is
missing or falsy (the spec treats falsy configured values as absent, and
absence propagates as the `None` sentinel).
-/

/-- The namespace-specific configuration level: the entry for `key` of the
namespace dictionary configured under `ns`, if any. -/
def specificLevelOpt (opts : ConfigStore) (ns key : String) : Option PyVal :=
  match (opts ns).getD (PyVal.dict []) with
  | PyVal.dict entries => dictFind entries key
  | _ => Option.none

/-- The namespace-specific level as a value, `None` when missing. -/
def specificLevel (opts : ConfigStore) (ns key : String) : PyVal :=
  (specificLevelOpt opts ns key).getD PyVal.none

/-- The namespace-default configuration level: the flat dotted option
`{ns}.{key}`, `None` when missing. -/
def defaultLevel (opts : ConfigStore) (ns key : String) : PyVal :=
  (opts (ns ++ "." ++ key)).getD PyVal.none

/-- Modelled from the spec: return the value of the highest-priority
non-absent level, in the order alternate-specific, alternate-default,
primary-specific, primary-default, and the `None` sentinel when every level
is absent. -/
def specResolve (altSpec altDflt primSpec primDflt : PyVal) : PyVal :=
  if truthy altSpec then altSpec
  else if truthy altDflt then altDflt
  else if truthy primSpec then primSpec
  else if truthy primDflt then primDflt
  else PyVal.none

/-- Modelled from the spec: the four precedence levels read off the
configuration state for one setting, the alternate levels being absent when
no (non-empty) alternate configuration name is given. -/
def specResolveFor (opts : ConfigStore) (retConfig : Option String)
    (vname key : String) : PyVal :=
  match retConfig with
  | some rc =>
      if rc = "" then
        specResolve PyVal.none PyVal.none
          (specificLevel opts vname key) (defaultLevel opts vname key)
      else
        specResolve (specificLevel opts (rc ++ "." ++ vname) key)
          (defaultLevel opts (rc ++ "." ++ vname) key)
          (specificLevel opts vname key) (defaultLevel opts vname key)
  | Option.none =>
      specResolve PyVal.none PyVal.none
        (specificLevel opts vname key) (defaultLevel opts vname key)

/-!
## Concrete fixtures

Concrete configuration states and result records used to instantiate the
theorems below on closed inputs.
-/

/-- A result record whose return payload nests a dictionary with a dotted
key. -/
def mongoRet0 : MongoRet :=
  { id := "minion1", jid := "20170101000000000000", fn := "test.ping"
    retval := PyVal.dict [("x", PyVal.dict [("a.b", PyVal.int 1)])]
    out := Option.none, ret_config := Option.none }

/-- A result record carrying an `'out'` entry. -/
def mongoRet1 : MongoRet :=
  { id := "minion2", jid := "20170101000000000001", fn := "test.ping"
    retval := PyVal.str "ok", out := some (PyVal.str "nested")
    ret_config := Option.none }

/-- A configuration state on which the code's resolution and the spec's
four-level precedence disagree: the alternate namespace dictionary binds
`host` to the falsy `''`, which shadows the (truthy) alternate flat default
`alternative.mongo.host` in `ret_cfg.get(...)`, so the code falls through to
the primary namespace instead of using the alternate default. -/
def shadowStore : ConfigStore := fun k =>
  if k = "alternative.mongo" then some (PyVal.dict [("host", PyVal.str "")])
  else if k = "alternative.mongo.host" then some (PyVal.str "alt.example.com")
  else if k = "mongo" then some (PyVal.dict [("host", PyVal.str "primary.example.com")])
  else Option.none

/-- A configuration state in which a profile is configured for the messaging
returner and binds `xmpp.jid` to the falsy `''`. -/
def profileStore : ConfigStore := fun k =>
  if k = "xmpp" then
    some (PyVal.dict [("profile", PyVal.str "profA"), ("recipient", PyVal.str "r@x.example")])
  else if k = "profA" then some (PyVal.dict [("xmpp.jid", PyVal.str "")])
  else Option.none

/-- A configuration state with the sender identity configured but no
password. -/
def jidOnlyStore : ConfigStore := fun k =>
  if k = "xmpp" then some (PyVal.dict [("jid", PyVal.str "me@x.example/r")])
  else Option.none

/-- A configuration state with sender identity and password but no
recipient. -/
def jidPwStore : ConfigStore := fun k =>
  if k = "xmpp" then
    some (PyVal.dict [("jid", PyVal.str "me@x.example/r"), ("password", PyVal.str "secret")])
  else Option.none

/-- A fully configured messaging state. -/
def fullXmppStore : ConfigStore := fun k =>
  if k = "xmpp" then
    some (PyVal.dict [("jid", PyVal.str "me@x.example/r"), ("password", PyVal.str "secret"),
      ("recipient", PyVal.str "boss@x.example")])
  else Option.none

/-- A concrete messaging result record. -/
def xmppRet0 : XmppRet :=
  { id := PyVal.str "minion1", fn := PyVal.str "test.ping"
    fun_args := PyVal.str "[]", jid := PyVal.str "20170101000000000000"
    retval := PyVal.bool true, ret_config := Option.none }

/-!
## Dot-freedom of keys

`noDotStr` holds of a string with no `'.'` character; `noDotDeep` /
`noDotDeepList` extend this to every key of a value at every nesting depth.
-/

/-- The string contains no `'.'` character. -/
def noDotStr (s : String) : Bool :=
  s.data.all (fun c => c != '.')

mutual

/-- No key of the value contains a `'.'`, at any nesting depth. -/
def noDotDeep : PyVal → Bool
  | PyVal.dict d => noDotDeepList d
  | _ => true

/-- No key of the entry list (or of any nested dictionary below it)
contains a `'.'`. -/
def noDotDeepList : List (String × PyVal) → Bool
  | [] => true
  | (k, v) :: rest => noDotStr k && noDotDeep v && noDotDeepList rest

end

/-!
## Dictionary model lemmas
-/

theorem keys_nil : keys [] = [] := rfl

theorem keys_cons (p : String × PyVal) (rest : List (String × PyVal)) :
    keys (p :: rest) = p.1 :: keys rest := rfl

theorem keys_append (l1 l2 : List (String × PyVal)) :
    keys (l1 ++ l2) = keys l1 ++ keys l2 := by
  simp [keys]

theorem keys_map_if (d : List (String × PyVal)) (k : String) (v : PyVal) :
    keys (d.map (fun p => if p.1 = k then (p.1, v) else p)) = keys d := by
  induction d with
  | nil => rfl
  | cons p rest ih =>
      by_cases h : p.1 = k <;> simp [keys, h] <;> simpa [keys] using ih

theorem dictInsert_not_mem {d : List (String × PyVal)} {k : String} (v : PyVal)
    (h : k ∉ keys d) : dictInsert d k v = d ++ [(k, v)] := by
  simp [dictInsert, h]

theorem keys_dictInsert_not_mem {d : List (String × PyVal)} {k : String} (v : PyVal)
    (h : k ∉ keys d) : keys (dictInsert d k v) = keys d ++ [k] := by
  simp [dictInsert_not_mem v h, keys]

theorem nodup_keys_dictInsert {d : List (String × PyVal)} (k : String) (v : PyVal)
    (h : (keys d).Nodup) : (keys (dictInsert d k v)).Nodup := by
  by_cases hk : k ∈ keys d
  · unfold dictInsert
    rw [if_pos hk, keys_map_if]
    exact h
  · rw [keys_dictInsert_not_mem v hk]
    simp [List.nodup_append, h, hk]

theorem mem_dictInsert_entry (Q : String × PyVal → Prop)
    {d : List (String × PyVal)} {k : String} {v : PyVal}
    (hd : ∀ p ∈ d, Q p) (hk : Q (k, v)) :
    ∀ p ∈ dictInsert d k v, Q p := by
  intro p hp
  unfold dictInsert at hp
  by_cases h : k ∈ keys d
  · rw [if_pos h] at hp
    obtain ⟨q, hq, hqe⟩ := List.mem_map.mp hp
    by_cases hq1 : q.1 = k
    · rw [if_pos hq1] at hqe
      rw [← hqe, hq1]
      exact hk
    · rw [if_neg hq1] at hqe
      rw [← hqe]
      exact hd q hq
  · rw [if_neg h] at hp
    rcases List.mem_append.mp hp with h1 | h1
    · exact hd p h1
    · rw [List.mem_singleton.mp h1]
      exact hk

theorem dotDash_idem (c : Char) : dotDash (dotDash c) = dotDash c := by
  unfold dotDash
  by_cases h : c = '.' <;> simp [h]

theorem replaceDots_idem (s : String) : replaceDots (replaceDots s) = replaceDots s := by
  unfold replaceDots
  have hdata : (String.mk (s.data.map dotDash)).data = s.data.map dotDash := rfl
  rw [hdata, List.map_map]
  have : s.data.map (dotDash ∘ dotDash) = s.data.map dotDash :=
    List.map_congr_left (fun a _ => dotDash_idem a)
  rw [this]

/-!
## Idempotence and dot-freedom of `_remove_dots`
-/

theorem removeDotsAux_clean_fixed :
    ∀ (l out : List (String × PyVal)),
      (∀ p ∈ l, replaceDots p.1 = p.1 ∧ sanitizeVal p.2 = p.2) →
      (keys l).Nodup →
      (∀ a ∈ keys l, a ∉ keys out) →
      removeDotsAux out l = out ++ l := by
  intro l
  induction l with
  | nil => intro out _ _ _; simp [removeDotsAux]
  | cons p rest ih =>
      intro out hc hnd hdisj
      obtain ⟨k, v⟩ := p
      have hk : replaceDots k = k := (hc (k, v) (by simp)).1
      have hv : sanitizeVal v = v := (hc (k, v) (by simp)).2
      have hkout : k ∉ keys out := hdisj k (by rw [keys_cons]; exact List.mem_cons_self _ _)
      have hknd : k ∉ keys rest ∧ (keys rest).Nodup := by
        simpa [keys_cons, List.nodup_cons] using hnd
      have hstep : removeDotsAux (out ++ [(k, v)]) rest = (out ++ [(k, v)]) ++ rest := by
        apply ih
        · exact fun q hq => hc q (List.mem_cons_of_mem _ hq)
        · exact hknd.2
        · intro a ha
          have h1 : a ∉ keys out := hdisj a (by rw [keys_cons]; exact List.mem_cons_of_mem _ ha)
          have h2 : a ≠ k := fun h => hknd.1 (h ▸ ha)
          rw [keys_append, keys_cons, keys_nil]
          simp [List.mem_append, h1, h2]
      simp only [removeDotsAux]
      rw [hk, hv, dictInsert_not_mem v hkout, hstep]
      simp

theorem removeDotsAux_clean_output :
    ∀ (l out : List (String × PyVal)),
      (∀ p ∈ l, sanitizeVal (sanitizeVal p.2) = sanitizeVal p.2) →
      (keys out).Nodup →
      (∀ p ∈ out, replaceDots p.1 = p.1 ∧ sanitizeVal p.2 = p.2) →
      (keys (removeDotsAux out l)).Nodup ∧
      (∀ p ∈ removeDotsAux out l, replaceDots p.1 = p.1 ∧ sanitizeVal p.2 = p.2) := by
  intro l
  induction l with
  | nil => intro out _ hnd hcl; exact ⟨hnd, hcl⟩
  | cons p rest ih =>
      intro out hval hnd hcl
      obtain ⟨k, v⟩ := p
      simp only [removeDotsAux]
      apply ih
      · exact fun q hq => hval q (List.mem_cons_of_mem _ hq)
      · exact nodup_keys_dictInsert _ _ hnd
      · apply mem_dictInsert_entry _ hcl
        exact ⟨replaceDots_idem k, hval (k, v) (List.mem_cons_self _ _)⟩

theorem sizeOf_snd_lt_of_mem {p : String × PyVal} {d : List (String × PyVal)}
    (hp : p ∈ d) : sizeOf p.2 < sizeOf d := by
  obtain ⟨k, v⟩ := p
  have h1 : sizeOf (k, v) < sizeOf d := List.sizeOf_lt_of_mem hp
  simp only [Prod.mk.sizeOf_spec] at h1
  show sizeOf v < sizeOf d
  omega

theorem sanitizeVal_idem_aux :
    ∀ (n : ℕ) (v : PyVal), sizeOf v ≤ n → sanitizeVal (sanitizeVal v) = sanitizeVal v := by
  intro n
  induction n with
  | zero => intro v hv; exfalso; cases v <;> simp at hv
  | succ m ih =>
      intro v hv
      cases v with
      | dict d =>
          have hvals : ∀ p ∈ d, sanitizeVal (sanitizeVal p.2) = sanitizeVal p.2 := by
            intro p hp
            apply ih
            have h1 : sizeOf p.2 < sizeOf d := sizeOf_snd_lt_of_mem hp
            have h2 : sizeOf (PyVal.dict d) = 1 + sizeOf d := by simp
            omega
          have hclean := removeDotsAux_clean_output d [] hvals (by rw [keys_nil]; exact List.nodup_nil) (by simp)
          simp only [sanitizeVal]
          congr 1
          have := removeDotsAux_clean_fixed (removeDotsAux [] d) [] hclean.2 hclean.1
            (by intro a _ h; rw [keys_nil] at h; exact (List.not_mem_nil a) h)
          simpa using this
      | none => rfl
      | str s => rfl
      | int i => rfl
      | bool b => rfl

theorem sanitizeVal_idem (v : PyVal) : sanitizeVal (sanitizeVal v) = sanitizeVal v :=
  sanitizeVal_idem_aux (sizeOf v) v le_rfl

theorem remove_dots_idem (src : List (String × PyVal)) :
    remove_dots (remove_dots src) = remove_dots src := by
  have h := sanitizeVal_idem (PyVal.dict src)
  simp only [sanitizeVal] at h
  injection h

/-- C2: the dot-to-dash key sanitizer is idempotent on every nested mapping —
applying `_remove_dots` twice yields the same dictionary as applying it once —
and it recurses into dictionary values: a nested dictionary value is itself
sanitized by `_remove_dots`. -/
theorem remove_dots_idempotent_and_recursive :
    (∀ src : List (String × PyVal), remove_dots (remove_dots src) = remove_dots src) ∧
    (∀ (k : String) (d : List (String × PyVal)),
      remove_dots [(k, PyVal.dict d)] = [(replaceDots k, PyVal.dict (remove_dots d))]) := by
  constructor
  · exact remove_dots_idem
  · intro k d
    simp [remove_dots, removeDotsAux, sanitizeVal, dictInsert, keys]

theorem noDotStr_replaceDots (s : String) : noDotStr (replaceDots s) = true := by
  unfold noDotStr replaceDots
  have hdata : (String.mk (s.data.map dotDash)).data = s.data.map dotDash := rfl
  rw [hdata, List.all_map]
  apply List.all_eq_true.mpr
  intro c _
  by_cases h : c = '.' <;> simp [dotDash, h]

theorem removeDotsAux_noDot :
    ∀ (l out : List (String × PyVal)),
      (∀ p ∈ l, noDotDeep (sanitizeVal p.2) = true) →
      (∀ p ∈ out, noDotStr p.1 = true ∧ noDotDeep p.2 = true) →
      ∀ p ∈ removeDotsAux out l, noDotStr p.1 = true ∧ noDotDeep p.2 = true := by
  intro l
  induction l with
  | nil => intro out _ hout; simpa [removeDotsAux] using hout
  | cons p rest ih =>
      intro out hl hout
      obtain ⟨k, v⟩ := p
      simp only [removeDotsAux]
      apply ih
      · exact fun q hq => hl q (List.mem_cons_of_mem _ hq)
      · apply mem_dictInsert_entry _ hout
        exact ⟨noDotStr_replaceDots k, hl (k, v) (List.mem_cons_self _ _)⟩

theorem noDotDeepList_of_entries :
    ∀ l : List (String × PyVal),
      (∀ p ∈ l, noDotStr p.1 = true ∧ noDotDeep p.2 = true) → noDotDeepList l = true := by
  intro l
  induction l with
  | nil => intro _; rfl
  | cons p rest ih =>
      intro h
      obtain ⟨k, v⟩ := p
      have h1 := h (k, v) (List.mem_cons_self _ _)
      simp only [noDotDeepList]
      rw [h1.1, h1.2, ih (fun q hq => h q (List.mem_cons_of_mem _ hq))]
      rfl

theorem noDotDeep_sanitizeVal_aux :
    ∀ (n : ℕ) (v : PyVal), sizeOf v ≤ n → noDotDeep (sanitizeVal v) = true := by
  intro n
  induction n with
  | zero => intro v hv; exfalso; cases v <;> simp at hv
  | succ m ih =>
      intro v hv
      cases v with
      | dict d =>
          have hvals : ∀ p ∈ d, noDotDeep (sanitizeVal p.2) = true := by
            intro p hp
            apply ih
            have h1 : sizeOf p.2 < sizeOf d := sizeOf_snd_lt_of_mem hp
            have h2 : sizeOf (PyVal.dict d) = 1 + sizeOf d := by simp
            omega
          simp only [sanitizeVal, noDotDeep]
          exact noDotDeepList_of_entries _ (removeDotsAux_noDot d [] hvals (by simp))
      | none => rfl
      | str s => rfl
      | int i => rfl
      | bool b => rfl

/-- C9: every key in the output of `_remove_dots` is free of `'.'` at every
nesting depth — every dot in a key, not only the first, is replaced by `'-'`
— and two distinct input keys can collapse onto one output key, the later
binding overwriting (and so losing) the earlier value. -/
theorem remove_dots_output_dot_free :
    (∀ src : List (String × PyVal), noDotDeepList (remove_dots src) = true) ∧
    remove_dots [("a.b.c", PyVal.int 1)] = [("a-b-c", PyVal.int 1)] ∧
    remove_dots [("a.b", PyVal.int 1), ("a-b", PyVal.int 2)] = [("a-b", PyVal.int 2)] := by
  refine ⟨?_, rfl, rfl⟩
  intro src
  have h := noDotDeep_sanitizeVal_aux (sizeOf (PyVal.dict src)) (PyVal.dict src) le_rfl
  simpa [sanitizeVal, noDotDeep, remove_dots] using h

/-!
## The database dispatcher's document
-/

theorem replaceDots_of_noDot {s : String} (h : noDotStr s = true) : replaceDots s = s := by
  unfold noDotStr at h
  unfold replaceDots
  cases s with
  | mk data =>
      have h' := List.all_eq_true.mp h
      have hmap : data.map dotDash = data := by
        have hcongr : data.map dotDash = data.map id :=
          List.map_congr_left (fun c hc => by
            have hne : (c != '.') = true := h' c hc
            rw [bne_iff_ne] at hne
            simp [dotDash, hne])
        rw [hcongr, List.map_id]
      rw [show (String.mk data).data = data from rfl, hmap]

/-- Shape of the single document built by `mongo_future_return.returner`. -/
theorem mongo_returner_doc_spec :
    ∀ (opts : ConfigStore) (flatMissing : PyVal) (ret : MongoRet),
      ret.jid ≠ "fun" → ret.jid ≠ "out" →
      (mongo_returner opts flatMissing ret).2.1 = ret.id ∧
      keys (mongo_returner opts flatMissing ret).2.2
        = [ret.jid, "fun"]
            ++ (match ret.out with | some _ => ["out"] | Option.none => []) ∧
      dictFind (mongo_returner opts flatMissing ret).2.2 ret.jid
        = some (match ret.retval with
                | PyVal.dict d => PyVal.dict (remove_dots d)
                | v => v) ∧
      dictFind (mongo_returner opts flatMissing ret).2.2 "fun" = some (PyVal.str ret.fn) ∧
      dictFind (mongo_returner opts flatMissing ret).2.2 "out" = ret.out ∧
      ("out" ∈ keys (mongo_returner opts flatMissing ret).2.2 ↔ ret.out ≠ Option.none) ∧
      (∀ (jid : String) (load : PyVal), save_load jid load = (jid, load)) := by
  intro opts flatMissing ret h1 h2
  have h1' : ¬("fun" = ret.jid) := fun h => h1 h.symm
  have h2' : ¬("out" = ret.jid) := fun h => h2 h.symm
  cases hout : ret.out with
  | none =>
      refine ⟨rfl, ?_, ?_, ?_, ?_, ?_, fun _ _ => rfl⟩ <;>
        simp [mongo_returner, hout, dictInsert, dictFind, keys, h1, h2, h1', h2']
  | some o =>
      refine ⟨rfl, ?_, ?_, ?_, ?_, ?_, fun _ _ => rfl⟩ <;>
        simp [mongo_returner, hout, dictInsert, dictFind, keys, h1, h2, h1', h2']

/-- C6: for every result record, the database dispatcher inserts exactly one
document, into the collection named by the record's minion identifier, whose
keys are the job id and `'fun'` — plus `'out'` exactly when the record carries
an `'out'` entry — bound to the sanitized payload, the function name, and the
output mode; `save_load` inserts the load unchanged into the collection named
by the job id. -/
theorem mongo_returner_document_shape :
    ∀ (opts : ConfigStore) (flatMissing : PyVal) (ret : MongoRet),
      ret.jid ≠ "fun" → ret.jid ≠ "out" →
      (mongo_returner opts flatMissing ret).2.1 = ret.id ∧
      keys (mongo_returner opts flatMissing ret).2.2
        = [ret.jid, "fun"]
            ++ (match ret.out with | some _ => ["out"] | Option.none => []) ∧
      dictFind (mongo_returner opts flatMissing ret).2.2 ret.jid
        = some (match ret.retval with
                | PyVal.dict d => PyVal.dict (remove_dots d)
                | v => v) ∧
      dictFind (mongo_returner opts flatMissing ret).2.2 "fun" = some (PyVal.str ret.fn) ∧
      dictFind (mongo_returner opts flatMissing ret).2.2 "out" = ret.out ∧
      ("out" ∈ keys (mongo_returner opts flatMissing ret).2.2 ↔ ret.out ≠ Option.none) ∧
      (∀ (jid : String) (load : PyVal), save_load jid load = (jid, load)) :=
  mongo_returner_doc_spec

/-- C5: when the return payload is a dictionary, the document stores it with
every key dot-sanitized by `_remove_dots`; in particular a nested dictionary
value with a dotted key such as `{"a.b": v}` is stored as `{"a-b": v}`. -/
theorem mongo_returner_sanitizes_nested_dotted_keys :
    ∀ (opts : ConfigStore) (flatMissing : PyVal) (ret : MongoRet)
      (d : List (String × PyVal)),
      ret.retval = PyVal.dict d → ret.jid ≠ "fun" → ret.jid ≠ "out" →
      dictFind (mongo_returner opts flatMissing ret).2.2 ret.jid
        = some (PyVal.dict (remove_dots d)) ∧
      (∀ v : PyVal, sanitizeVal v = v →
        remove_dots [("a.b", v)] = [("a-b", v)]) ∧
      (∀ (k : String) (v : PyVal), noDotStr k = true → sanitizeVal v = v →
        remove_dots [(k, PyVal.dict [("a.b", v)])] = [(k, PyVal.dict [("a-b", v)])]) := by
  intro opts flatMissing ret d hret h1 h2
  refine ⟨?_, ?_, ?_⟩
  · have := (mongo_returner_doc_spec opts flatMissing ret h1 h2).2.2.1
    rw [hret] at this
    exact this
  · intro v hv
    have hab : replaceDots "a.b" = "a-b" := by decide
    simp [remove_dots, removeDotsAux, hv, dictInsert, keys, hab]
  · intro k v hk hv
    have hab : replaceDots "a.b" = "a-b" := by decide
    simp [remove_dots, removeDotsAux, sanitizeVal, hv, dictInsert, keys, hab,
      replaceDots_of_noDot hk]

/-- Witness for C6 at concrete records, with and without an `'out'` entry. -/
theorem mongo_returner_document_shape_witness :
    keys (mongo_returner emptyStore PyVal.none mongoRet1).2.2
      = ["20170101000000000001", "fun", "out"] ∧
    dictFind (mongo_returner emptyStore PyVal.none mongoRet1).2.2 "out"
      = some (PyVal.str "nested") ∧
    keys (mongo_returner emptyStore PyVal.none mongoRet0).2.2
      = ["20170101000000000000", "fun"] := by
  have hw1 := mongo_returner_document_shape emptyStore PyVal.none mongoRet1
    (by decide) (by decide)
  have hw0 := mongo_returner_document_shape emptyStore PyVal.none mongoRet0
    (by decide) (by decide)
  exact ⟨hw1.2.1, hw1.2.2.2.2.1, hw0.2.1⟩

/-- Witness for C5 at a concrete record whose payload nests `{"a.b": 1}`. -/
theorem mongo_returner_sanitizes_witness :
    dictFind (mongo_returner emptyStore PyVal.none mongoRet0).2.2 "20170101000000000000"
      = some (PyVal.dict [("x", PyVal.dict [("a-b", PyVal.int 1)])]) ∧
    remove_dots [("a.b", PyVal.int 7)] = [("a-b", PyVal.int 7)] := by
  have hw := mongo_returner_sanitizes_nested_dotted_keys emptyStore PyVal.none mongoRet0
    [("x", PyVal.dict [("a.b", PyVal.int 1)])] rfl (by decide) (by decide)
  exact ⟨hw.1, hw.2.1 (PyVal.int 7) rfl⟩

/-!
## The messaging dispatcher
-/

/-- C3: when the resolved sender identity, password or recipient is absent,
the messaging dispatcher logs the missing field, aborts and returns a falsy
result, without building a bot, opening a connection or sending anything. -/
theorem xmpp_returner_aborts_on_missing_fields :
    ∀ (opts : ConfigStore) (flatMissing : PyVal) (ret : XmppRet) (connectOk : Bool),
      (truthy (xmppResolved opts flatMissing ret "from_jid") = false →
        xmpp_returner opts flatMissing ret connectOk
          = { connectionAttempted := false, messageSent := false, sentType := Option.none
              success := false, botMessage := Option.none
              logged := some "xmpp.jid not defined in salt config" }) ∧
      (truthy (xmppResolved opts flatMissing ret "from_jid") = true →
       truthy (xmppResolved opts flatMissing ret "password") = false →
        xmpp_returner opts flatMissing ret connectOk
          = { connectionAttempted := false, messageSent := false, sentType := Option.none
              success := false, botMessage := Option.none
              logged := some "xmpp.password not defined in salt config" }) ∧
      (truthy (xmppResolved opts flatMissing ret "from_jid") = true →
       truthy (xmppResolved opts flatMissing ret "password") = true →
       truthy (xmppResolved opts flatMissing ret "recipient_jid") = false →
        xmpp_returner opts flatMissing ret connectOk
          = { connectionAttempted := false, messageSent := false, sentType := Option.none
              success := false, botMessage := Option.none
              logged := some "xmpp.recipient not defined in salt config" }) := by
  intro opts flatMissing ret connectOk
  refine ⟨?_, ?_, ?_⟩
  · intro h1
    simp [xmpp_returner, h1]
  · intro h1 h2
    simp [xmpp_returner, h1, h2]
  · intro h1 h2 h3
    simp [xmpp_returner, h1, h2, h3]

/-- Witness for C3: each required messaging field missing in turn, on
concrete configuration states. -/
theorem xmpp_returner_aborts_witness :
    xmpp_returner emptyStore PyVal.none xmppRet0 true
      = { connectionAttempted := false, messageSent := false, sentType := Option.none
          success := false, botMessage := Option.none
          logged := some "xmpp.jid not defined in salt config" } ∧
    xmpp_returner jidOnlyStore PyVal.none xmppRet0 true
      = { connectionAttempted := false, messageSent := false, sentType := Option.none
          success := false, botMessage := Option.none
          logged := some "xmpp.password not defined in salt config" } ∧
    xmpp_returner jidPwStore PyVal.none xmppRet0 true
      = { connectionAttempted := false, messageSent := false, sentType := Option.none
          success := false, botMessage := Option.none
          logged := some "xmpp.recipient not defined in salt config" } :=
  ⟨(xmpp_returner_aborts_on_missing_fields emptyStore PyVal.none xmppRet0 true).1
      (by decide),
   (xmpp_returner_aborts_on_missing_fields jidOnlyStore PyVal.none xmppRet0 true).2.1
      (by decide) (by decide),
   (xmpp_returner_aborts_on_missing_fields jidPwStore PyVal.none xmppRet0 true).2.2
      (by decide) (by decide) (by decide)⟩

/-- C7: with all three required settings resolved, the dispatcher builds
exactly one chat-type message following the fixed five-line template — minion
identity, function name, function arguments, job id, pretty-printed return
value, in that order — and its returned success value is exactly the
protocol-level connect result. -/
theorem xmpp_returner_sends_template :
    ∀ (opts : ConfigStore) (flatMissing : PyVal) (ret : XmppRet) (connectOk : Bool),
      truthy (xmppResolved opts flatMissing ret "from_jid") = true →
      truthy (xmppResolved opts flatMissing ret "password") = true →
      truthy (xmppResolved opts flatMissing ret "recipient_jid") = true →
      xmpp_returner opts flatMissing ret connectOk
        = { connectionAttempted := true, messageSent := connectOk
            sentType := if connectOk then some "chat" else Option.none
            success := connectOk
            botMessage := some ("id: " ++ pyStr ret.id ++ "\r\n" ++
              "function: " ++ pyStr ret.fn ++ "\r\n" ++
              "function args: " ++ pyStr ret.fun_args ++ "\r\n" ++
              "jid: " ++ pyStr ret.jid ++ "\r\n" ++
              "return: " ++ pformat ret.retval ++ "\r\n")
            logged := Option.none } := by
  intro opts flatMissing ret connectOk h1 h2 h3
  simp [xmpp_returner, xmppMessage, h1, h2, h3]

/-- Witness for C7 on a fully configured state and a successful connect. -/
theorem xmpp_returner_sends_template_witness :
    xmpp_returner fullXmppStore PyVal.none xmppRet0 true
      = { connectionAttempted := true, messageSent := true, sentType := some "chat"
          success := true
          botMessage := some ("id: minion1\r\n" ++ "function: test.ping\r\n" ++
            "function args: []\r\n" ++ "jid: 20170101000000000000\r\n" ++
            "return: True\r\n")
          logged := Option.none } := by
  have h := xmpp_returner_sends_template fullXmppStore PyVal.none xmppRet0 true
    (by decide) (by decide) (by decide)
  rw [h]
  rfl

/-!
## Basic facts about the resolved options and the collection-name scans
-/

theorem truthy_pynone : truthy PyVal.none = false := rfl

theorem pyGet_level_some (opts : ConfigStore) (ns key : String) (dflt v : PyVal)
    (h : specificLevelOpt opts ns key = some v) :
    pyGet ((opts ns).getD (PyVal.dict [])) key dflt = v := by
  unfold specificLevelOpt at h
  unfold pyGet
  cases hv : (opts ns).getD (PyVal.dict []) with
  | dict entries =>
      rw [hv] at h
      simp only at h
      show (dictFind entries key).getD dflt = v
      rw [h]
      rfl
  | none => rw [hv] at h; simp at h
  | str s => rw [hv] at h; simp at h
  | int n => rw [hv] at h; simp at h
  | bool b => rw [hv] at h; simp at h

theorem pyGet_level_none (opts : ConfigStore) (ns key : String) (dflt : PyVal)
    (h : specificLevelOpt opts ns key = Option.none) :
    pyGet ((opts ns).getD (PyVal.dict [])) key dflt = dflt := by
  unfold specificLevelOpt at h
  unfold pyGet
  cases hv : (opts ns).getD (PyVal.dict []) with
  | dict entries =>
      rw [hv] at h
      simp only at h
      show (dictFind entries key).getD dflt = dflt
      rw [h]
      rfl
  | none => rfl
  | str s => rfl
  | int n => rfl
  | bool b => rfl

theorem primary_branch_eq (opts : ConfigStore) (flatMissing : PyVal) (vname key : String)
    (hfm : truthy flatMissing = false)
    (hprim : ∀ v, specificLevelOpt opts vname key = some v → truthy v = true) :
    (if truthy (primaryAttr opts flatMissing vname key)
      then primaryAttr opts flatMissing vname key else PyVal.none)
      = specResolve PyVal.none PyVal.none
          (specificLevel opts vname key) (defaultLevel opts vname key) := by
  rcases hs : specificLevelOpt opts vname key with _ | v
  · unfold primaryAttr
    rw [pyGet_level_none opts vname key _ hs]
    rcases hf : opts (vname ++ "." ++ key) with _ | w
    · rw [Option.getD_none]
      simp [hfm, specResolve, specificLevel, defaultLevel, hs, hf, truthy_pynone]
    · rw [Option.getD_some]
      by_cases hw : truthy w = true
      · simp [hw, specResolve, specificLevel, defaultLevel, hs, hf, truthy_pynone]
      · rw [Bool.not_eq_true] at hw
        simp [hw, specResolve, specificLevel, defaultLevel, hs, hf, truthy_pynone]
  · unfold primaryAttr
    rw [pyGet_level_some opts vname key _ v hs]
    have hv := hprim v hs
    simp [hv, specResolve, specificLevel, hs, truthy_pynone]

/-- The source's resolution agrees with the spec's four-level precedence on
every configuration state in which the namespace dictionaries bind only
truthy values to the setting (and the missing-flat-key default is falsy, as
it is in both source branches). -/
theorem resolveAttr_eq_specResolveFor
    (opts : ConfigStore) (flatMissing : PyVal) (retConfig : Option String)
    (vname key : String)
    (hfm : truthy flatMissing = false)
    (hns : ∀ ns v, specificLevelOpt opts ns key = some v → truthy v = true) :
    resolveAttr opts flatMissing retConfig vname key
      = specResolveFor opts retConfig vname key := by
  cases retConfig with
  | none =>
      show (if truthy (primaryAttr opts flatMissing vname key)
        then primaryAttr opts flatMissing vname key else PyVal.none) = _
      rw [primary_branch_eq opts flatMissing vname key hfm (hns vname)]
      rfl
  | some rc =>
      by_cases hrc : rc = ""
      · subst hrc
        show (if truthy (primaryAttr opts flatMissing vname key)
          then primaryAttr opts flatMissing vname key else PyVal.none) = _
        rw [primary_branch_eq opts flatMissing vname key hfm (hns vname)]
        simp [specResolveFor]
      · have hres : resolveAttr opts flatMissing (some rc) vname key
            = if truthy (altAttr opts flatMissing rc vname key)
              then (if truthy (altAttr opts flatMissing rc vname key)
                then altAttr opts flatMissing rc vname key else PyVal.none)
              else (if truthy (primaryAttr opts flatMissing vname key)
                then primaryAttr opts flatMissing vname key else PyVal.none) := by
          unfold resolveAttr
          simp only [hrc, if_neg, if_false]
          by_cases hc : truthy (altAttr opts flatMissing rc vname key) = true
          · simp [hc]
          · rw [Bool.not_eq_true] at hc
            simp [hc]
        rw [hres]
        rcases hs : specificLevelOpt opts (rc ++ "." ++ vname) key with _ | v
        · unfold altAttr
          rw [pyGet_level_none opts (rc ++ "." ++ vname) key _ hs]
          rcases hf : opts (rc ++ "." ++ vname ++ "." ++ key) with _ | w
          · rw [Option.getD_none]
            simp only [hfm, Bool.false_eq_true, if_false]
            rw [primary_branch_eq opts flatMissing vname key hfm (hns vname)]
            simp [specResolveFor, hrc, specResolve, specificLevel, defaultLevel, hs, hf,
              truthy_pynone]
          · rw [Option.getD_some]
            by_cases hw : truthy w = true
            · simp [hw, specResolveFor, hrc, specResolve, specificLevel, defaultLevel, hs, hf,
                truthy_pynone]
            · rw [Bool.not_eq_true] at hw
              simp only [hw, Bool.false_eq_true, if_false]
              rw [primary_branch_eq opts flatMissing vname key hfm (hns vname)]
              simp [specResolveFor, hrc, specResolve, specificLevel, defaultLevel, hs, hf, hw,
                truthy_pynone]
        · unfold altAttr
          rw [pyGet_level_some opts (rc ++ "." ++ vname) key _ v hs]
          have hv := hns (rc ++ "." ++ vname) v hs
          simp [hs, hv, specResolveFor, hrc, specResolve, specificLevel, truthy_pynone]

theorem mongo_keys_fixed (opts : ConfigStore) (flatMissing : PyVal) (retConfig : Option String) :
    keys (mongo_get_options opts flatMissing retConfig)
      = ["host", "port", "db", "username", "password"] := rfl

theorem keys_dictInsert_mem {d : List (String × PyVal)} {k : String} (v : PyVal)
    (h : k ∈ keys d) : keys (dictInsert d k v) = keys d := by
  unfold dictInsert
  rw [if_pos h, keys_map_if]

theorem xmpp_get_options_no_profile (opts : ConfigStore) (flatMissing : PyVal)
    (retConfig : Option String)
    (h : truthy (xmppProfileCreds opts flatMissing retConfig) = false) :
    xmpp_get_options opts flatMissing retConfig
      = baseOptions opts flatMissing retConfig "xmpp" xmppAttrs := by
  unfold xmpp_get_options
  simp [h]

theorem xmpp_keys_fixed (opts : ConfigStore) (flatMissing : PyVal)
    (retConfig : Option String) :
    keys (xmpp_get_options opts flatMissing retConfig)
      = ["xmpp_profile", "from_jid", "password", "recipient_jid"] := by
  have hb : keys (baseOptions opts flatMissing retConfig "xmpp" xmppAttrs)
      = ["xmpp_profile", "from_jid", "password", "recipient_jid"] := rfl
  unfold xmpp_get_options
  by_cases h : truthy (xmppProfileCreds opts flatMissing retConfig) = true
  · rw [if_pos h]
    have h1 : keys (dictInsert (baseOptions opts flatMissing retConfig "xmpp" xmppAttrs)
        "from_jid" (pyGet (xmppProfileCreds opts flatMissing retConfig) "xmpp.jid" PyVal.none))
        = keys (baseOptions opts flatMissing retConfig "xmpp" xmppAttrs) :=
      keys_dictInsert_mem _ (by rw [hb]; decide)
    have h2 := @keys_dictInsert_mem
      (dictInsert (baseOptions opts flatMissing retConfig "xmpp" xmppAttrs)
        "from_jid" (pyGet (xmppProfileCreds opts flatMissing retConfig) "xmpp.jid" PyVal.none))
      "password"
      (pyGet (xmppProfileCreds opts flatMissing retConfig) "xmpp.password" PyVal.none)
      (by rw [h1, hb]; decide)
    rw [h2, h1, hb]
  · rw [if_neg h, hb]

theorem ifTruthy_none_or (t : PyVal) :
    (if truthy t then t else PyVal.none) = PyVal.none ∨
    truthy (if truthy t then t else PyVal.none) = true := by
  by_cases h : truthy t = true
  · right
    rw [if_pos h]
    exact h
  · left
    rw [Bool.not_eq_true] at h
    simp [h]

theorem resolveAttr_none_or_truthy (opts : ConfigStore) (flatMissing : PyVal)
    (retConfig : Option String) (vname key : String) :
    resolveAttr opts flatMissing retConfig vname key = PyVal.none ∨
    truthy (resolveAttr opts flatMissing retConfig vname key) = true := by
  unfold resolveAttr
  exact ifTruthy_none_or _

/-- C8: the database connection helper reads the credential under `'user'`,
but the resolver only ever stores it under `'username'`, so the
`if user and password:` authentication guard is false for every configuration
state and `mdb.authenticate` is never invoked. -/
theorem mongo_auth_never_called :
    ∀ (opts : ConfigStore) (flatMissing : PyVal) (retConfig : Option String),
      dictFind (mongo_get_options opts flatMissing retConfig) "user" = Option.none ∧
      "username" ∈ keys (mongo_get_options opts flatMissing retConfig) ∧
      (mongo_get_conn opts flatMissing retConfig).authCalled = false := by
  intro opts fm rc
  refine ⟨rfl, ?_, rfl⟩
  rw [mongo_keys_fixed]
  decide

theorem get_jids_foldl (names acc : List String) :
    names.foldl
      (fun ret name =>
        if name.length = 20 then
          if intParses name then ret ++ [name] else ret
        else ret)
      acc = acc ++ names.filter (fun n => decide (n.length = 20) && intParses n) := by
  induction names generalizing acc with
  | nil => simp
  | cons n rest ih =>
      simp only [List.foldl_cons, List.filter]
      by_cases h20 : n.length = 20
      · by_cases hip : intParses n
        · simp [h20, hip, ih]
        · simp [h20, hip, ih]
      · simp [h20, ih]

theorem get_minions_foldl (names acc : List String) :
    names.foldl
      (fun ret name =>
        if name.length = 20 then
          if intParses name then ret else ret ++ [name]
        else ret ++ [name])
      acc = acc ++ names.filter (fun n => !(decide (n.length = 20) && intParses n)) := by
  induction names generalizing acc with
  | nil => simp
  | cons n rest ih =>
      simp only [List.foldl_cons, List.filter]
      by_cases h20 : n.length = 20
      · by_cases hip : intParses n
        · simp [h20, hip, ih]
        · simp [h20, hip, ih]
      · simp [h20, ih]

/-- C4: over any set of collection names, `get_jids` returns exactly the names
of length 20 that parse as an integer, `get_minions` exactly the remaining
names, and the two lists partition the collection names (disjoint and jointly
exhaustive). -/
theorem minions_jids_partition :
    ∀ (names : List String) (n : String),
      (n ∈ get_jids names ↔ n ∈ names ∧ (n.length = 20 ∧ intParses n = true)) ∧
      (n ∈ get_minions names ↔ n ∈ names ∧ ¬(n.length = 20 ∧ intParses n = true)) ∧
      ¬(n ∈ get_jids names ∧ n ∈ get_minions names) ∧
      (n ∈ names → n ∈ get_jids names ∨ n ∈ get_minions names) := by
  intro names n
  have hj : n ∈ get_jids names ↔ n ∈ names ∧ (n.length = 20 ∧ intParses n = true) := by
    unfold get_jids
    rw [get_jids_foldl]
    simp [List.mem_filter]
  have hm : n ∈ get_minions names ↔ n ∈ names ∧ ¬(n.length = 20 ∧ intParses n = true) := by
    unfold get_minions
    rw [get_minions_foldl]
    simp [List.mem_filter]
    tauto
  refine ⟨hj, hm, ?_, ?_⟩
  · rintro ⟨h1, h2⟩
    exact (hm.mp h2).2 (hj.mp h1).2
  · intro hmem
    by_cases hp : n.length = 20 ∧ intParses n = true
    · exact Or.inl (hj.mpr ⟨hmem, hp⟩)
    · exact Or.inr (hm.mpr ⟨hmem, hp⟩)

/-!
## Config resolution precedence (claim-level results)
-/

/-- C1 (amended): on every configuration state in which the namespace
dictionaries bind a setting only to truthy values, each setting is resolved to
the value of the highest-priority non-absent level, in the order
alternate-specific, alternate-default, primary-specific, primary-default
(absent meaning missing or falsy, with `None` when all levels are absent);
and each resolver maps each of its settings — five for the database
dispatcher, four for the messaging one — to exactly this resolution, the
messaging resolver provided its profile override is not in effect. -/
theorem config_resolution_precedence :
    (∀ (opts : ConfigStore) (flatMissing : PyVal) (retConfig : Option String)
        (vname key : String),
      truthy flatMissing = false →
      (∀ ns v, specificLevelOpt opts ns key = some v → truthy v = true) →
      resolveAttr opts flatMissing retConfig vname key
        = specResolveFor opts retConfig vname key) ∧
    (∀ (opts : ConfigStore) (flatMissing : PyVal) (retConfig : Option String),
      ∀ p ∈ mongoAttrs,
        dictFind (mongo_get_options opts flatMissing retConfig) p.1
          = some (resolveAttr opts flatMissing retConfig "mongo" p.2)) ∧
    (∀ (opts : ConfigStore) (flatMissing : PyVal) (retConfig : Option String),
      truthy (xmppProfileCreds opts flatMissing retConfig) = false →
      ∀ p ∈ xmppAttrs,
        dictFind (xmpp_get_options opts flatMissing retConfig) p.1
          = some (resolveAttr opts flatMissing retConfig "xmpp" p.2)) := by
  refine ⟨?_, ?_, ?_⟩
  · intro opts flatMissing retConfig vname key hfm hns
    exact resolveAttr_eq_specResolveFor opts flatMissing retConfig vname key hfm hns
  · intro opts flatMissing retConfig p hp
    simp only [mongoAttrs, List.mem_cons, List.not_mem_nil, or_false] at hp
    rcases hp with rfl | rfl | rfl | rfl | rfl <;> rfl
  · intro opts flatMissing retConfig h p hp
    rw [xmpp_get_options_no_profile opts flatMissing retConfig h]
    simp only [xmppAttrs, List.mem_cons, List.not_mem_nil, or_false] at hp
    rcases hp with rfl | rfl | rfl | rfl <;> rfl

/-- C1 counterexample: on `shadowStore` the alternate namespace dictionary
binds `host` to the falsy empty string, which `ret_cfg.get` returns in place of the
truthy alternate flat default, so the code falls through to the primary
namespace while the four-level precedence of the spec selects the alternate
default — the resolver does not return the highest-priority non-absent
level. -/
theorem config_resolution_precedence_counterexample :
    resolveAttr shadowStore PyVal.none (some "alternative") "mongo" "host"
      = PyVal.str "primary.example.com" ∧
    specResolveFor shadowStore (some "alternative") "mongo" "host"
      = PyVal.str "alt.example.com" ∧
    resolveAttr shadowStore PyVal.none (some "alternative") "mongo" "host"
      ≠ specResolveFor shadowStore (some "alternative") "mongo" "host" := by
  refine ⟨rfl, rfl, ?_⟩
  intro h
  have h1 : PyVal.str "primary.example.com" = PyVal.str "alt.example.com" := h
  injection h1 with h2
  exact absurd h2 (by decide)

/-- Witness for C1 (amended) on concrete configuration states. -/
theorem config_resolution_precedence_witness :
    resolveAttr fullXmppStore PyVal.none (some "alternative") "xmpp" "jid"
      = specResolveFor fullXmppStore (some "alternative") "xmpp" "jid" ∧
    dictFind (mongo_get_options emptyStore PyVal.none Option.none) "host"
      = some (resolveAttr emptyStore PyVal.none Option.none "mongo" "host") ∧
    dictFind (xmpp_get_options emptyStore PyVal.none Option.none) "from_jid"
      = some (resolveAttr emptyStore PyVal.none Option.none "xmpp" "jid") := by
  refine ⟨?_, ?_, ?_⟩
  · apply config_resolution_precedence.1 fullXmppStore PyVal.none (some "alternative")
      "xmpp" "jid" rfl
    intro ns v h
    by_cases hx : ns = "xmpp"
    · subst hx
      have he : specificLevelOpt fullXmppStore "xmpp" "jid"
          = some (PyVal.str "me@x.example/r") := rfl
      rw [he] at h
      injection h with h2
      rw [← h2]
      rfl
    · have he : fullXmppStore ns = Option.none := by simp [fullXmppStore, hx]
      unfold specificLevelOpt at h
      rw [he] at h
      simp [dictFind] at h
  · exact config_resolution_precedence.2.1 emptyStore PyVal.none Option.none
      ("host", "host") (by decide)
  · exact config_resolution_precedence.2.2 emptyStore PyVal.none Option.none
      (by decide) ("from_jid", "jid") (by decide)

/-- C10 (amended): each resolver returns a mapping with exactly its fixed
setting keys; in the database resolver every resolved value is either truthy
or the `None` sentinel (falsy results are normalized to `None`), and a falsy
alternate-namespace candidate makes resolution fall through to exactly the
primary-only resolution; the messaging resolver satisfies the same
normalization provided its profile override is not in effect (the override
copies profile values verbatim, without falsy-to-`None` normalization). -/
theorem resolved_options_shape :
    (∀ (opts : ConfigStore) (flatMissing : PyVal) (retConfig : Option String),
      keys (mongo_get_options opts flatMissing retConfig)
        = ["host", "port", "db", "username", "password"] ∧
      keys (xmpp_get_options opts flatMissing retConfig)
        = ["xmpp_profile", "from_jid", "password", "recipient_jid"]) ∧
    (∀ (opts : ConfigStore) (flatMissing : PyVal) (retConfig : Option String),
      ∀ p ∈ mongo_get_options opts flatMissing retConfig,
        p.2 = PyVal.none ∨ truthy p.2 = true) ∧
    (∀ (opts : ConfigStore) (flatMissing : PyVal) (rc vname key : String),
      rc ≠ "" →
      truthy (altAttr opts flatMissing rc vname key) = false →
      resolveAttr opts flatMissing (some rc) vname key
        = resolveAttr opts flatMissing Option.none vname key) ∧
    (∀ (opts : ConfigStore) (flatMissing : PyVal) (retConfig : Option String),
      truthy (xmppProfileCreds opts flatMissing retConfig) = false →
      ∀ p ∈ xmpp_get_options opts flatMissing retConfig,
        p.2 = PyVal.none ∨ truthy p.2 = true) := by
  refine ⟨?_, ?_, ?_, ?_⟩
  · intro opts flatMissing retConfig
    exact ⟨mongo_keys_fixed opts flatMissing retConfig,
      xmpp_keys_fixed opts flatMissing retConfig⟩
  · intro opts flatMissing retConfig p hp
    have hlist : mongo_get_options opts flatMissing retConfig
        = [("host", resolveAttr opts flatMissing retConfig "mongo" "host"),
           ("port", resolveAttr opts flatMissing retConfig "mongo" "port"),
           ("db", resolveAttr opts flatMissing retConfig "mongo" "db"),
           ("username", resolveAttr opts flatMissing retConfig "mongo" "username"),
           ("password", resolveAttr opts flatMissing retConfig "mongo" "password")] := rfl
    rw [hlist] at hp
    simp only [List.mem_cons, List.not_mem_nil, or_false] at hp
    rcases hp with rfl | rfl | rfl | rfl | rfl <;>
      exact resolveAttr_none_or_truthy opts flatMissing retConfig "mongo" _
  · intro opts flatMissing rc vname key hrc halt
    unfold resolveAttr
    simp [hrc, halt]
  · intro opts flatMissing retConfig h p hp
    rw [xmpp_get_options_no_profile opts flatMissing retConfig h] at hp
    have hlist : baseOptions opts flatMissing retConfig "xmpp" xmppAttrs
        = [("xmpp_profile", resolveAttr opts flatMissing retConfig "xmpp" "profile"),
           ("from_jid", resolveAttr opts flatMissing retConfig "xmpp" "jid"),
           ("password", resolveAttr opts flatMissing retConfig "xmpp" "password"),
           ("recipient_jid", resolveAttr opts flatMissing retConfig "xmpp" "recipient")] := rfl
    rw [hlist] at hp
    simp only [List.mem_cons, List.not_mem_nil, or_false] at hp
    rcases hp with rfl | rfl | rfl | rfl <;>
      exact resolveAttr_none_or_truthy opts flatMissing retConfig "xmpp" _

/-- C10 counterexample: with a configured profile binding `xmpp.jid` to the
falsy empty string, the messaging resolver returns that empty string for the sender
identity — a falsy resolved value that is not stored as the `None`
sentinel. -/
theorem resolved_options_shape_counterexample :
    dictFind (xmpp_get_options profileStore PyVal.none (some "")) "from_jid"
      = some (PyVal.str "") ∧
    truthy (PyVal.str "") = false ∧
    PyVal.str "" ≠ PyVal.none := by
  refine ⟨rfl, rfl, ?_⟩
  intro h
  exact PyVal.noConfusion h

/-- Witness for C10 (amended) on concrete configuration states. -/
theorem resolved_options_shape_witness :
    keys (mongo_get_options emptyStore PyVal.none Option.none)
      = ["host", "port", "db", "username", "password"] ∧
    resolveAttr emptyStore PyVal.none (some "alternative") "mongo" "host"
      = resolveAttr emptyStore PyVal.none Option.none "mongo" "host" ∧
    (PyVal.none = PyVal.none ∨
      truthy PyVal.none = true) := by
  refine ⟨(resolved_options_shape.1 emptyStore PyVal.none Option.none).1,
    resolved_options_shape.2.2.1 emptyStore PyVal.none "alternative" "mongo" "host"
      (by decide) (by decide), ?_⟩
  have hx : xmpp_get_options emptyStore PyVal.none Option.none
      = [("xmpp_profile", PyVal.none), ("from_jid", PyVal.none),
         ("password", PyVal.none), ("recipient_jid", PyVal.none)] := rfl
  have h := resolved_options_shape.2.2.2 emptyStore PyVal.none Option.none (by decide)
    ("from_jid", PyVal.none)
    (by rw [hx]; exact List.mem_cons_of_mem _ (List.mem_cons_self _ _))
  exact h

end Salt
